import Mathlib

set_option autoImplicit false

/-
Verification development for the ProxyClient library: a small HTTP client
base class (url resolution, request construction, error normalization) and a
reverse-proxying request handler.  The definitions below are a shallow
embedding of the JavaScript source; external capabilities (the Node url
parser, the Node status-code table, the superagent promise wrapper, the
Express response setters) are modelled where the source consumes them, each
with a comment naming what it models.
-/

namespace ProxyClientModel

/-! ## JavaScript value helpers (truthiness and fallback chains) -/

/-- A JavaScript primitive value as it appears in response bodies: either a
string or a (nonnegative) number. -/
inductive JsVal where
  | str (s : String)
  | num (n : Nat)
  deriving Repr, DecidableEq

/-- Truthiness of an optional string, as JavaScript sees it: `undefined`,
`null` and the empty string are falsy. -/
def jsTruthyStr : Option String → Bool
  | none => false
  | some s => !(s == "")

/-- Truthiness of an optional number: `undefined`, `null` and `0` are falsy. -/
def jsTruthyNum : Option Nat → Bool
  | none => false
  | some n => !(n == 0)

/-- Truthiness of an optional `JsVal`. -/
def jsTruthyVal : Option JsVal → Bool
  | none => false
  | some (JsVal.str s) => !(s == "")
  | some (JsVal.num n) => !(n == 0)

/-- The JavaScript expression `v || d` for strings: keeps `v` when truthy,
falls back to the default otherwise. -/
def jsOrStr (v : Option String) (d : String) : String :=
  if jsTruthyStr v then v.getD d else d

/-- The JavaScript expression `v || d` for numbers. -/
def jsOrNum (v : Option Nat) (d : Nat) : Nat :=
  if jsTruthyNum v then v.getD d else d

/-! ## Data model: the client record and its constructor -/

/-- A logging capability.  `mill name` is the default sink produced by
`sawmill.createMill(name)`; `custom id` stands for an injected logger
object (objects are always truthy in JavaScript). -/
inductive Logger where
  | mill (name : String)
  | custom (id : Nat)
  deriving Repr, DecidableEq

/-- The state of a `ProxyClient` instance after construction: `rootUrl`,
`logger`, `timeout` and the private `_authorization` field (JavaScript
`null` is `none`). -/
structure ProxyClient where
  rootUrl : String
  logger : Logger
  timeout : Nat
  _authorization : Option String
  deriving Repr, DecidableEq

/-- The options record accepted by the constructor; every field may be
absent (`none` models both `undefined` and `null`). -/
structure CtorOptions where
  rootUrl : Option String := none
  logger : Option Logger := none
  timeout : Option Nat := none
  deriving Repr, DecidableEq

/-- The `ProxyClient(options)` constructor (called on a fresh instance, so
the `this.rootUrl || ...` chains start from `undefined`): applies the
JavaScript `||` defaults rootUrl=http://localhost, logger=sawmill mill named
after the class, timeout=5000, and initializes `_authorization` to null.
`options` itself may be absent (`options = options || {}`). -/
def mkProxyClient (options : Option CtorOptions) : ProxyClient :=
  let opts := options.getD {}
  { rootUrl := jsOrStr opts.rootUrl "http://localhost"
    logger := opts.logger.getD (Logger.mill "ProxyClient")
    timeout := jsOrNum opts.timeout 5000
    _authorization := none }

/-- `ProxyClient.createClient(options)`: calls the constructor on a fresh
instance. -/
def createClient (options : Option CtorOptions) : ProxyClient :=
  mkProxyClient options

/-- The options record accepted by `getChild`; only `auth` is read. -/
structure GetChildOptions where
  auth : Option String := none
  deriving Repr, DecidableEq

/-- `getChild(options)`: builds a child via `createClient(this)` — the
parent object itself is read as the options record, so every constructor
option is the corresponding parent field — then assigns
`child._authorization = options.auth`.  The result pairs the parent object
as the call leaves it (the source assigns only to the fresh child) with the
child. -/
def ProxyClient.getChild (parent : ProxyClient) (options : GetChildOptions) :
    ProxyClient × ProxyClient :=
  let child0 := createClient (some
    { rootUrl := some parent.rootUrl
      logger := some parent.logger
      timeout := some parent.timeout })
  (parent, { child0 with _authorization := options.auth })

/-! ## The legacy Node url parser (external capability consumed by the core)

Models `url.parse` from the legacy Node `url` module for the shapes the
client meets: an optional protocol `[a-zA-Z0-9.+-]+:`, optional `//`, an
optional userinfo part dropped at the last `@` before the host end, a host
terminated by one of `% / ? ; #`, a trailing `:digits` port, and a path
(pathname + search, hash excluded).  Not modelled: percent-escaping of
stray characters, IPv6 bracket hosts, punycode hostname normalization, and
the `//user@host` no-protocol special case — none of which the claims
exercise. -/

/-- Characters allowed in a protocol token. -/
def isProtoChar (c : Char) : Bool :=
  c.isAlphanum || c == '.' || c == '+' || c == '-'

/-- Splits a leading `protocol:` token, returning it (colon included)
together with the remainder. -/
def splitProtocol (s : List Char) : Option (List Char × List Char) :=
  let p := s.takeWhile isProtoChar
  match p, s.dropWhile isProtoChar with
  | [], _ => none
  | _, ':' :: r => some (p ++ [':'], r)
  | _, _ => none

/-- Protocols whose urls carry `//` before the host (legacy slashedProtocol
table of the Node versions this library targets). -/
def slashedProtocols : List String :=
  ["http:", "https:", "ftp:", "gopher:", "file:"]

/-- Protocols that never carry a host (legacy hostlessProtocol table). -/
def hostlessProtocols : List String := ["javascript:"]

/-- Characters that terminate the host section. -/
def isNonHostChar (c : Char) : Bool :=
  c == '%' || c == '/' || c == '?' || c == ';' || c == '#'

/-- The suffix after the last `@` of a list, when one occurs. -/
def afterLastAt : List Char → Option (List Char)
  | [] => none
  | c :: rest =>
    match afterLastAt rest with
    | some s => some s
    | none => if c == '@' then some rest else none

/-- Drops a userinfo prefix: the last `@` before the first of `/ ? #`
separates auth from host. -/
def dropAuth (rest : List Char) : List Char :=
  let seg := rest.takeWhile (fun c => !(c == '/' || c == '?' || c == '#'))
  match afterLastAt seg with
  | some s => s ++ rest.drop seg.length
  | none => rest

/-- Splits a trailing `:digits` port off a host token (a bare trailing colon
is dropped with no port, as in the legacy parseHost). -/
def splitPort (host : List Char) : List Char × Option (List Char) :=
  let r := host.reverse
  match r.dropWhile Char.isDigit with
  | ':' :: beforeColon =>
    let digits := r.takeWhile Char.isDigit
    (beforeColon.reverse, if digits.isEmpty then none else some digits.reverse)
  | _ => (host, none)

/-- The result record of a `url.parse` call, restricted to the fields the
client reads. -/
structure UrlParts where
  protocol : Option String
  hostname : Option String
  port : Option String
  host : Option String
  path : Option String
  deriving Repr, DecidableEq

/-- Path portion (pathname + search) of a host-less remainder; the hash is
excluded, and an empty path is absent. -/
def pathOfRest (rest : List Char) : Option String :=
  let beforeHash := rest.takeWhile (fun c => !(c == '#'))
  if beforeHash.isEmpty then none else some (String.mk beforeHash)

/-- Parses the host section (after auth removal) and the remainder into url
parts: hostname lowercased, port split off, `host` rebuilt as
hostname[:port], and the slashed-protocol default pathname `/` applied. -/
def buildHostParts (protocol : String) (rest0 : List Char) : UrlParts :=
  let rest := dropAuth rest0
  let hostPart := rest.takeWhile (fun c => !(isNonHostChar c))
  let afterHost := rest.dropWhile (fun c => !(isNonHostChar c))
  let hp := splitPort hostPart
  let hostname := String.mk (hp.1.map Char.toLower)
  let portStr := hp.2.map String.mk
  let host := hostname ++ (match portStr with
    | some pr => ":" ++ pr
    | none => "")
  let beforeHash := afterHost.takeWhile (fun c => !(c == '#'))
  let pathname0 := beforeHash.takeWhile (fun c => !(c == '?'))
  let search := beforeHash.dropWhile (fun c => !(c == '?'))
  let pathname :=
    if pathname0.isEmpty && slashedProtocols.contains protocol
        && !(hostname == "") then
      ['/']
    else pathname0
  let path := pathname ++ search
  { protocol := some protocol
    hostname := some hostname
    port := portStr
    host := some host
    path := if path.isEmpty then none else some (String.mk path) }

/-- Url parts with no host section. -/
def hostlessParts (protocol : Option String) (rest : List Char) : UrlParts :=
  { protocol := protocol
    hostname := none
    port := none
    host := none
    path := pathOfRest rest }

/-- Models `url.parse(s)` (legacy Node api, default arguments): a host is
parsed exactly when the protocol is not hostless and either `//` follows the
protocol or the protocol is not a slashed protocol. -/
def url_parse (s : String) : UrlParts :=
  match splitProtocol s.data with
  | none => hostlessParts none s.data
  | some (p, rest) =>
    let protocol := String.mk (p.map Char.toLower)
    if hostlessProtocols.contains protocol then
      hostlessParts (some protocol) rest
    else if rest.take 2 == ['/', '/'] then
      buildHostParts protocol (rest.drop 2)
    else if slashedProtocols.contains protocol then
      hostlessParts (some protocol) rest
    else
      buildHostParts protocol rest

/-! ## getUrl -/

/-- `getUrl(path)`: when the path parses with a truthy hostname it is
already absolute and returned as-is; otherwise it is concatenated onto
`rootUrl`. -/
def ProxyClient.getUrl (self : ProxyClient) (path : String) : String :=
  if jsTruthyStr (url_parse path).hostname then path
  else self.rootUrl ++ path

/-! ## Header maps as association lists (JavaScript object semantics) -/

/-- Value of a key in an association list (first match). -/
def lookupKey (l : List (String × String)) (k : String) : Option String :=
  match l with
  | [] => none
  | (k2, v) :: rest => if k2 = k then some v else lookupKey rest k

/-- Assignment `target[k] = v` on a JavaScript object modelled as an
association list: an existing key keeps its position (keys of a JavaScript
object are unique, so replacing the first occurrence is replacing the
occurrence), a new key is appended. -/
def setKey : List (String × String) → String → String → List (String × String)
  | [], k, v => [(k, v)]
  | (k2, v2) :: rest, k, v =>
    if k2 = k then (k, v) :: rest else (k2, v2) :: setKey rest k v

/-- Models `util._extend(target, source)`: copies each own property of
`source` onto `target` in order. -/
def util_extend (target source : List (String × String)) :
    List (String × String) :=
  source.foldl (fun t kv => setKey t kv.1 kv.2) target

/-! ## The request builder and its promise semantics -/

/-- The superagent request object as configured by the client: method, the
resolved url, the headers set so far, and the timeout. -/
structure SARequest where
  method : String
  url : String
  headers : List (String × String)
  timeoutMs : Option Nat
  deriving Repr, DecidableEq

/-- Models the superagent header setter `.set(field, value)`: a string
value stores the header; a null value leaves the header unset (superagent
skips null-valued header fields when writing the request). -/
def saSet (r : SARequest) (field : String) (value : Option String) : SARequest :=
  match value with
  | some v => { r with headers := setKey r.headers field v }
  | none => r

/-- `request(method, path)`: resolves the target url via `getUrl`, then
builds the superagent request with
`.set(Authorization, this._authorization)` and `.timeout(this.timeout)`
(the `.use`/`.on` logging hooks do not alter the request data). -/
def ProxyClient.request (self : ProxyClient) (method path : String) : SARequest :=
  let href := self.getUrl path
  let r0 : SARequest :=
    { method := method, url := href, headers := [], timeoutMs := none }
  let r1 := saSet r0 "Authorization" self._authorization
  { r1 with timeoutMs := some self.timeout }

/-- `get(path)`. -/
def ProxyClient.get (self : ProxyClient) (path : String) : SARequest :=
  self.request "GET" path

/-- `post(path)`. -/
def ProxyClient.post (self : ProxyClient) (path : String) : SARequest :=
  self.request "POST" path

/-- `put(path)`. -/
def ProxyClient.put (self : ProxyClient) (path : String) : SARequest :=
  self.request "PUT" path

/-- `del(path)`. -/
def ProxyClient.del (self : ProxyClient) (path : String) : SARequest :=
  self.request "DELETE" path

/-- A transport-level failure: DNS failure, connection failure, or the
configured timeout elapsing. -/
inductive TransportError where
  | dns
  | connection
  | timeout
  deriving Repr, DecidableEq

/-- The response object superagent delivers when the exchange completes:
any valid HTTP status, headers, parsed body fields and raw text. -/
structure RespBody where
  message : Option String := none
  code : Option JsVal := none
  name : Option String := none
  deriving Repr, DecidableEq

/-- A received HTTP response (superagent shape): `status`, `text` (raw
response text, possibly absent), `body` (parsed structured body, possibly
absent) and headers. -/
structure SAResponse where
  status : Nat
  text : Option String := none
  body : Option RespBody := none
  headers : List (String × String) := []
  deriving Repr, DecidableEq

/-- What the transport does with a dispatched request: either it fails at
the transport level or the exchange completes with some response. -/
inductive TransportOutcome where
  | transportFailure (e : TransportError)
  | completed (res : SAResponse)
  deriving Repr, DecidableEq

/-- Modelled from the spec: the resolution policy of the promise wrapper
(superagent-then) applied to `request.end()` — only transport-level
failures reject the returned future, and a completed exchange fulfills it
with the response whatever its status code.  The request argument records
which configured request the outcome resolves. -/
def endRequest (_r : SARequest) (outcome : TransportOutcome) :
    Except TransportError SAResponse :=
  match outcome with
  | TransportOutcome.transportFailure e => Except.error e
  | TransportOutcome.completed res => Except.ok res

/-! ## rejectResponse and the status-code table -/

/-- A synchronously thrown JavaScript error: either a TypeError (reading a
property of undefined) or an Error with a message. -/
inductive JsError where
  | typeError (what : String)
  | error (message : String)
  deriving Repr, DecidableEq

/-- The settled state of a promise. -/
inductive PromiseResult (α : Type) where
  | rejected (e : α)
  deriving Repr, DecidableEq

/-- The error record built by `rejectResponse`. -/
structure ClientError where
  message : String
  code : JsVal
  name : String
  response : SAResponse
  deriving Repr, DecidableEq

/-- Models `http.STATUS_CODES` of the Node versions this library targets:
the canonical reason phrase for each known status code. -/
def http_STATUS_CODES (status : Nat) : Option String :=
  (statusCodesTable.find? (fun p => p.1 == status)).map (fun p => p.2)
where
  statusCodesTable : List (Nat × String) :=
    [(100, "Continue"), (101, "Switching Protocols"), (102, "Processing"),
     (200, "OK"), (201, "Created"), (202, "Accepted"),
     (203, "Non-Authoritative Information"), (204, "No Content"),
     (205, "Reset Content"), (206, "Partial Content"), (207, "Multi-Status"),
     (208, "Already Reported"), (226, "IM Used"),
     (300, "Multiple Choices"), (301, "Moved Permanently"), (302, "Found"),
     (303, "See Other"), (304, "Not Modified"), (305, "Use Proxy"),
     (307, "Temporary Redirect"), (308, "Permanent Redirect"),
     (400, "Bad Request"), (401, "Unauthorized"), (402, "Payment Required"),
     (403, "Forbidden"), (404, "Not Found"), (405, "Method Not Allowed"),
     (406, "Not Acceptable"), (407, "Proxy Authentication Required"),
     (408, "Request Timeout"), (409, "Conflict"), (410, "Gone"),
     (411, "Length Required"), (412, "Precondition Failed"),
     (413, "Payload Too Large"), (414, "URI Too Long"),
     (415, "Unsupported Media Type"), (416, "Range Not Satisfiable"),
     (417, "Expectation Failed"), (418, "I\x27m a teapot"),
     (421, "Misdirected Request"), (422, "Unprocessable Entity"),
     (423, "Locked"), (424, "Failed Dependency"),
     (425, "Unordered Collection"), (426, "Upgrade Required"),
     (428, "Precondition Required"), (429, "Too Many Requests"),
     (431, "Request Header Fields Too Large"),
     (451, "Unavailable For Legal Reasons"),
     (500, "Internal Server Error"), (501, "Not Implemented"),
     (502, "Bad Gateway"), (503, "Service Unavailable"),
     (504, "Gateway Timeout"), (505, "HTTP Version Not Supported"),
     (506, "Variant Also Negotiates"), (507, "Insufficient Storage"),
     (508, "Loop Detected"), (509, "Bandwidth Limit Exceeded"),
     (510, "Not Extended"), (511, "Network Authentication Required")]

/-- Removes every whitespace character, as `replace(\s g, empty)` does on a
reason phrase. -/
def removeWhitespace (s : String) : String :=
  String.mk (s.data.filter (fun c => !(c == ' ' || c == '\t' || c == '\n' || c == '\r')))

/-- `rejectResponse(response)`: builds the error from the body fields with
JavaScript `||` fallbacks — message from `body.message` else the response
text (an absent argument to the Error constructor yields an empty message),
code from `body.code` else the status, name from `body.name` else the
canonical reason phrase with whitespace removed plus the suffix Error —
and returns `when.reject(err)`.  When the name fallback runs and
`http.STATUS_CODES[response.status]` is undefined, the `.replace` call on
undefined throws a TypeError instead. -/
def ProxyClient.rejectResponse (_self : ProxyClient) (response : SAResponse) :
    Except JsError (PromiseResult ClientError) :=
  let body := response.body.getD {}
  let message :=
    (if jsTruthyStr body.message then body.message else response.text).getD ""
  let code :=
    if jsTruthyVal body.code then body.code.getD (JsVal.num response.status)
    else JsVal.num response.status
  if jsTruthyStr body.name then
    Except.ok (PromiseResult.rejected
      { message := message, code := code, name := body.name.getD "",
        response := response })
  else
    match http_STATUS_CODES response.status with
    | some phrase =>
      Except.ok (PromiseResult.rejected
        { message := message, code := code,
          name := removeWhitespace phrase ++ "Error", response := response })
    | none =>
      Except.error (JsError.typeError "replace of undefined")

/-! ## The core transport dispatcher -/

/-- The options record handed to the Node core `http`/`https` request
functions by the client. -/
structure CoreOptions where
  protocol : Option String
  method : String
  hostname : Option String
  port : Option String
  path : Option String
  headers : List (String × String)
  deriving Repr, DecidableEq

/-- Which core transport module a request was dispatched through. -/
inductive Transport where
  | httpMod
  | httpsMod
  deriving Repr, DecidableEq

/-- A core client request produced by `http.request`/`https.request`:
carries the transport it was dispatched through, its options, and the body
chunks piped into it. -/
structure CoreRequest where
  transport : Transport
  options : CoreOptions
  pipedIn : List (List Nat) := []
  deriving Repr, DecidableEq

/-- Stringification of the protocol value inside the thrown message; the
parsed url carries null when no protocol was found. -/
def protocolText : Option String → String
  | some p => p
  | none => "null"

/-- `_createCoreRequest(options)`: dispatches via the `http` module for
protocol http:, via the `https` module for https:, and otherwise throws
`Error(Invalid protocol, ...)` synchronously, dispatching nothing. -/
def ProxyClient._createCoreRequest (_self : ProxyClient) (options : CoreOptions) :
    Except JsError CoreRequest :=
  if options.protocol = some "http:" then
    Except.ok { transport := Transport.httpMod, options := options }
  else if options.protocol = some "https:" then
    Except.ok { transport := Transport.httpsMod, options := options }
  else
    Except.error (JsError.error
      ("Invalid protocol, " ++ protocolText options.protocol ++ ". Check rootUrl."))

/-! ## The proxying subapp -/

/-- An inbound request as the Express middleware sees it: method, the
relative url (path + query), the inbound headers, and the streamed body
chunks. -/
structure InboundRequest where
  method : String
  url : String
  headers : List (String × String)
  bodyChunks : List (List Nat) := []
  deriving Repr, DecidableEq

/-- The options literal the subapp middleware passes to
`_createCoreRequest`: the parsed pieces of `getUrl(req.url)` and the
inbound headers extended by the forced Connection, Host and Origin fields
(`util._extend`).  A null host would stringify if ever written; it only
arises when the protocol check throws first. -/
def ProxyClient.subappOptions (self : ProxyClient) (req : InboundRequest) :
    CoreOptions :=
  let parsedUrl := url_parse (self.getUrl req.url)
  let hostText := parsedUrl.host.getD "null"
  { protocol := parsedUrl.protocol
    method := req.method
    hostname := parsedUrl.hostname
    port := parsedUrl.port
    path := parsedUrl.path
    headers := util_extend req.headers
      [("Connection", "Keep-Alive"), ("Host", hostText), ("Origin", hostText)] }

/-- The middleware mounted by `subapp()`, up to dispatch: builds the
outgoing core request from the options above and pipes the inbound body
into it (`req.pipe(outgoing)`). -/
def ProxyClient.subappHandle (self : ProxyClient) (req : InboundRequest) :
    Except JsError CoreRequest :=
  match self._createCoreRequest (self.subappOptions req) with
  | Except.ok core => Except.ok { core with pipedIn := req.bodyChunks }
  | Except.error e => Except.error e

/-- The upstream response arriving on the outgoing core request: status
code, headers, and the streamed body chunks. -/
structure CoreIncomingResponse where
  statusCode : Nat
  headers : List (String × String)
  bodyChunks : List (List Nat) := []
  deriving Repr, DecidableEq

/-- The Express response object delivered to the original caller: the
status set so far, the headers set so far, and the body chunks written. -/
structure ServerResponse where
  status : Option Nat := none
  headers : List (String × String) := []
  bodyChunks : List (List Nat) := []
  deriving Repr, DecidableEq

/-- The `on(response)` handler of the subapp middleware:
`res.status(incoming.statusCode)`, `res.set(incoming.headers)` (Express
sets each field of the object onto the response), then
`incoming.pipe(res)` appends the upstream chunks to whatever was already
written (nothing, for this middleware). -/
def subappOnResponse (incoming : CoreIncomingResponse) (res : ServerResponse) :
    ServerResponse :=
  { status := some incoming.statusCode
    headers := util_extend res.headers incoming.headers
    bodyChunks := res.bodyChunks ++ incoming.bodyChunks }

/-! ## Concrete fixtures used by witnesses -/

/-- Fixture: a 404 response with empty parsed body and raw text. -/
def notFoundResponse : SAResponse :=
  { status := 404, text := some "Not Found", body := some {} }

/-- Fixture: the error rejectResponse builds from `notFoundResponse`. -/
def notFoundError : ClientError :=
  { message := "Not Found"
    code := JsVal.num 404
    name := "NotFoundError"
    response := notFoundResponse }

/-- Fixture: a response whose body carries explicit message, code and name
fields. -/
def customBodyResponse : SAResponse :=
  { status := 500
    text := some "raw"
    body := some
      { message := some "bad thing"
        code := some (JsVal.str "E1")
        name := some "CustomError" } }

/-- Fixture: the error rejectResponse builds from `customBodyResponse`. -/
def customBodyError : ClientError :=
  { message := "bad thing"
    code := JsVal.str "E1"
    name := "CustomError"
    response := customBodyResponse }

/-- Fixture: a response with a status code absent from the canonical
status-code table and no body name. -/
def unknownStatusResponse : SAResponse :=
  { status := 999, text := some "weird", body := some {} }

/-- Fixture: a client rooted at the upstream of the spec proxy scenario. -/
def apiClient : ProxyClient :=
  mkProxyClient (some { rootUrl := some "https://api.example/v1" })

/-- Fixture: an inbound GET to /search?q=x carrying one header. -/
def searchInbound : InboundRequest :=
  { method := "GET", url := "/search?q=x", headers := [("accept", "text/html")] }

/-- Fixture: the core request the subapp builds for `searchInbound`. -/
def searchOutbound : CoreRequest :=
  { transport := Transport.httpsMod
    options :=
      { protocol := some "https:"
        method := "GET"
        hostname := some "api.example"
        port := none
        path := some "/v1/search?q=x"
        headers := [("accept", "text/html"), ("Connection", "Keep-Alive"),
          ("Host", "api.example"), ("Origin", "api.example")] }
    pipedIn := [] }

/-! ## Helper lemmas about header maps -/

theorem lookupKey_append (t s : List (String × String)) (q : String) :
    lookupKey (t ++ s) q =
      match lookupKey t q with
      | some v => some v
      | none => lookupKey s q := by
  induction t with
  | nil => simp [lookupKey]
  | cons hd tl ih =>
    obtain ⟨k2, v2⟩ := hd
    by_cases h : k2 = q
    · simp [lookupKey, h]
    · simp [lookupKey, h, ih]

theorem lookupKey_setKey_self (l : List (String × String)) (k v : String) :
    lookupKey (setKey l k v) k = some v := by
  induction l with
  | nil => simp [setKey, lookupKey]
  | cons hd tl ih =>
    obtain ⟨k2, v2⟩ := hd
    by_cases h : k2 = k
    · simp [setKey, h, lookupKey]
    · simp [setKey, h, lookupKey, ih]

theorem lookupKey_setKey_other (l : List (String × String)) (k v q : String)
    (h : q ≠ k) : lookupKey (setKey l k v) q = lookupKey l q := by
  induction l with
  | nil => simp [setKey, lookupKey, Ne.symm h]
  | cons hd tl ih =>
    obtain ⟨k2, v2⟩ := hd
    by_cases h2 : k2 = k
    · subst h2
      simp [setKey, lookupKey, Ne.symm h]
    · by_cases h3 : k2 = q
      · simp [setKey, h2, lookupKey, h3, h]
      · simp [setKey, h2, lookupKey, h3, h, ih]

theorem setKey_of_fresh (l : List (String × String)) (k v : String)
    (h : lookupKey l k = none) : setKey l k v = l ++ [(k, v)] := by
  induction l with
  | nil => simp [setKey]
  | cons hd tl ih =>
    obtain ⟨k2, v2⟩ := hd
    by_cases h2 : k2 = k
    · simp [lookupKey, h2] at h
    · simp only [lookupKey, if_neg h2] at h
      simp [setKey, h2, ih h]

theorem util_extend_of_fresh (s : List (String × String)) :
    ∀ t : List (String × String),
      (∀ p ∈ s, lookupKey t p.1 = none) →
      (s.map Prod.fst).Nodup →
      util_extend t s = t ++ s := by
  induction s with
  | nil => intro t _ _; simp [util_extend]
  | cons hd tl ih =>
    intro t hfresh hnodup
    obtain ⟨k, v⟩ := hd
    have hk : lookupKey t k = none := hfresh (k, v) (by simp)
    have hknotin : k ∉ tl.map Prod.fst := (List.nodup_cons.mp (by simpa using hnodup)).1
    have hfresh2 : ∀ p ∈ tl, lookupKey (t ++ [(k, v)]) p.1 = none := by
      intro p hp
      have hpt : lookupKey t p.1 = none := hfresh p (List.mem_cons_of_mem _ hp)
      have hpk : ¬ k = p.1 := by
        intro hEq
        exact hknotin (hEq ▸ List.mem_map_of_mem Prod.fst hp)
      rw [lookupKey_append, hpt]
      simp [lookupKey, hpk]
    have hnd2 : (tl.map Prod.fst).Nodup := (List.nodup_cons.mp (by simpa using hnodup)).2
    calc util_extend t ((k, v) :: tl)
        = util_extend (setKey t k v) tl := rfl
      _ = util_extend (t ++ [(k, v)]) tl := by rw [setKey_of_fresh t k v hk]
      _ = (t ++ [(k, v)]) ++ tl := ih (t ++ [(k, v)]) hfresh2 hnd2
      _ = t ++ ((k, v) :: tl) := by simp

theorem lookup_forced_headers (base : List (String × String)) (hostText : String) :
    lookupKey (util_extend base
      [("Connection", "Keep-Alive"), ("Host", hostText), ("Origin", hostText)])
      "Connection" = some "Keep-Alive" ∧
    lookupKey (util_extend base
      [("Connection", "Keep-Alive"), ("Host", hostText), ("Origin", hostText)])
      "Host" = some hostText ∧
    lookupKey (util_extend base
      [("Connection", "Keep-Alive"), ("Host", hostText), ("Origin", hostText)])
      "Origin" = some hostText ∧
    (∀ k, k ≠ "Connection" → k ≠ "Host" → k ≠ "Origin" →
      lookupKey (util_extend base
        [("Connection", "Keep-Alive"), ("Host", hostText), ("Origin", hostText)])
        k = lookupKey base k) := by
  have he : util_extend base
      [("Connection", "Keep-Alive"), ("Host", hostText), ("Origin", hostText)]
      = setKey (setKey (setKey base "Connection" "Keep-Alive") "Host" hostText)
          "Origin" hostText := rfl
  refine ⟨?_, ?_, ?_, ?_⟩
  · rw [he, lookupKey_setKey_other _ _ _ _ (by decide),
      lookupKey_setKey_other _ _ _ _ (by decide), lookupKey_setKey_self]
  · rw [he, lookupKey_setKey_other _ _ _ _ (by decide), lookupKey_setKey_self]
  · rw [he, lookupKey_setKey_self]
  · intro k h1 h2 h3
    rw [he, lookupKey_setKey_other _ _ _ _ h3, lookupKey_setKey_other _ _ _ _ h2,
      lookupKey_setKey_other _ _ _ _ h1]

theorem createCoreRequest_ok_options (c : ProxyClient) (o : CoreOptions)
    (core : CoreRequest) (h : c._createCoreRequest o = Except.ok core) :
    core.options = o ∧ core.pipedIn = [] := by
  unfold ProxyClient._createCoreRequest at h
  split at h
  · injection h with h2
    rw [← h2]
    exact ⟨rfl, rfl⟩
  · split at h
    · injection h with h2
      rw [← h2]
      exact ⟨rfl, rfl⟩
    · exact Except.noConfusion h

/-! ## Claim theorems -/

/-- C1: for every path string, `getUrl(path)` returns the path unchanged
when it parses as an absolute url (truthy hostname), and otherwise returns
the plain string concatenation `rootUrl + path`, with no path-segment
normalization and no deduplication of slashes. -/
theorem getUrl_resolution (c : ProxyClient) (path : String) :
    (jsTruthyStr (url_parse path).hostname = true → c.getUrl path = path) ∧
    (jsTruthyStr (url_parse path).hostname = false →
      c.getUrl path = c.rootUrl ++ path) := by
  constructor <;> intro h <;> simp [ProxyClient.getUrl, h]

/-- C1 witness: the two spec examples, plus a doubled slash kept verbatim. -/
theorem getUrl_resolution_witness :
    jsTruthyStr (url_parse "https://other.example/x").hostname = true ∧
    (mkProxyClient none).getUrl "https://other.example/x"
      = "https://other.example/x" ∧
    jsTruthyStr (url_parse "/search").hostname = false ∧
    (mkProxyClient none).getUrl "/search" = "http://localhost/search" ∧
    (mkProxyClient (some { rootUrl := some "http://localhost/" })).getUrl "/search"
      = "http://localhost//search" :=
  ⟨by decide,
   (getUrl_resolution (mkProxyClient none) "https://other.example/x").1 (by decide),
   by decide,
   (getUrl_resolution (mkProxyClient none) "/search").2 (by decide),
   (getUrl_resolution (mkProxyClient (some { rootUrl := some "http://localhost/" }))
     "/search").2 (by decide)⟩

/-- C10: constructor options with falsy values (absent, null, empty string,
zero) are replaced by their defaults — rootUrl http://localhost (an empty
rootUrl is not preserved), timeout 5000 (an explicit 0 does not disable the
timeout), logger the default sawmill sink — while truthy values are kept. -/
theorem constructor_option_defaults (opts : CtorOptions) :
    (jsTruthyStr opts.rootUrl = false →
      (mkProxyClient (some opts)).rootUrl = "http://localhost") ∧
    (jsTruthyNum opts.timeout = false →
      (mkProxyClient (some opts)).timeout = 5000) ∧
    (opts.logger = none →
      (mkProxyClient (some opts)).logger = Logger.mill "ProxyClient") ∧
    (∀ s, opts.rootUrl = some s → s ≠ "" →
      (mkProxyClient (some opts)).rootUrl = s) ∧
    (∀ n, opts.timeout = some n → n ≠ 0 →
      (mkProxyClient (some opts)).timeout = n) ∧
    (∀ lg, opts.logger = some lg → (mkProxyClient (some opts)).logger = lg) ∧
    mkProxyClient none = mkProxyClient (some {}) := by
  refine ⟨?_, ?_, ?_, ?_, ?_, ?_, rfl⟩
  · intro h; simp [mkProxyClient, jsOrStr, h]
  · intro h; simp [mkProxyClient, jsOrNum, h]
  · intro h; simp [mkProxyClient, h]
  · intro s hs hne; simp [mkProxyClient, jsOrStr, jsTruthyStr, hs, hne]
  · intro n hn hne; simp [mkProxyClient, jsOrNum, jsTruthyNum, hn, hne]
  · intro lg hlg; simp [mkProxyClient, hlg]

/-- C10 witness: an options record with empty rootUrl, zero timeout and no
logger gets all three defaults. -/
theorem constructor_option_defaults_witness :
    jsTruthyStr (some "") = false ∧
    (mkProxyClient (some { rootUrl := some "", timeout := some 0 })).rootUrl
      = "http://localhost" ∧
    jsTruthyNum (some 0) = false ∧
    (mkProxyClient (some { rootUrl := some "", timeout := some 0 })).timeout
      = 5000 ∧
    (mkProxyClient (some { rootUrl := some "", timeout := some 0 })).logger
      = Logger.mill "ProxyClient" := by
  have main := constructor_option_defaults { rootUrl := some "", timeout := some 0 }
  exact ⟨by decide, main.1 (by decide), by decide, main.2.1 (by decide),
    main.2.2.1 rfl⟩

/-- C6: deriving a child client copies rootUrl, logger and timeout from the
parent (for any parent whose fields are truthy, as every constructed client
satisfies), sets the child authorization to options.auth, and leaves the
parent record untouched. -/
theorem getChild_derivation (parent : ProxyClient) (options : GetChildOptions)
    (hroot : parent.rootUrl ≠ "") (htime : parent.timeout ≠ 0) :
    (parent.getChild options).1 = parent ∧
    (parent.getChild options).2.rootUrl = parent.rootUrl ∧
    (parent.getChild options).2.logger = parent.logger ∧
    (parent.getChild options).2.timeout = parent.timeout ∧
    (parent.getChild options).2._authorization = options.auth := by
  refine ⟨rfl, ?_, rfl, ?_, rfl⟩
  · simp [ProxyClient.getChild, createClient, mkProxyClient, jsOrStr,
      jsTruthyStr, hroot]
  · simp [ProxyClient.getChild, createClient, mkProxyClient, jsOrNum,
      jsTruthyNum, htime]

/-- C6 witness: deriving from a default-constructed parent with auth tok. -/
theorem getChild_derivation_witness :
    (mkProxyClient none).rootUrl ≠ "" ∧
    ((mkProxyClient none).getChild { auth := some "tok" }).2._authorization
      = some "tok" ∧
    ((mkProxyClient none).getChild { auth := some "tok" }).2.rootUrl
      = (mkProxyClient none).rootUrl ∧
    ((mkProxyClient none).getChild { auth := some "tok" }).1 = mkProxyClient none ∧
    (mkProxyClient none)._authorization = none := by
  have main := getChild_derivation (mkProxyClient none) { auth := some "tok" }
    (by decide) (by decide)
  exact ⟨by decide, main.2.2.2.2, main.2.1, main.1, rfl⟩

/-- C7: the outbound request built by `request` carries at most one
Authorization header, its value exactly the client authorization, and no
header at all when no authorization is set. -/
theorem request_authorization_header (c : ProxyClient) (method path : String) :
    (c.request method path).headers.countP (fun p => p.1 == "Authorization") ≤ 1 ∧
    lookupKey (c.request method path).headers "Authorization" = c._authorization ∧
    (c._authorization = none → (c.request method path).headers = []) := by
  cases hauth : c._authorization with
  | none =>
    refine ⟨?_, ?_, fun _ => ?_⟩ <;>
      simp [ProxyClient.request, saSet, hauth, lookupKey]
  | some a =>
    refine ⟨?_, ?_, fun hcontra => ?_⟩
    · simp [ProxyClient.request, saSet, hauth, setKey]
    · simp [ProxyClient.request, saSet, hauth, setKey, lookupKey]
    · exact Option.noConfusion hcontra

/-- C7 witness: no header without authorization; exactly the token with. -/
theorem request_authorization_header_witness :
    (mkProxyClient none)._authorization = none ∧
    ((mkProxyClient none).request "GET" "/x").headers = [] ∧
    lookupKey
      (({ rootUrl := "http://localhost", logger := Logger.mill "ProxyClient",
          timeout := 5000, _authorization := some "tok" } : ProxyClient).request
        "GET" "/x").headers "Authorization" = some "tok" :=
  ⟨rfl,
   (request_authorization_header (mkProxyClient none) "GET" "/x").2.2 rfl,
   (request_authorization_header
     { rootUrl := "http://localhost", logger := Logger.mill "ProxyClient",
       timeout := 5000, _authorization := some "tok" } "GET" "/x").2.1⟩

/-- C3: the future returned by request (and by the verb wrappers, which
delegate to request) fails exactly on transport-level failures; a completed
exchange with any status yields the response and is never auto-rejected. -/
theorem request_resolution_policy (c : ProxyClient) (method path : String)
    (outcome : TransportOutcome) :
    (∀ res : SAResponse, outcome = TransportOutcome.completed res →
      endRequest (c.request method path) outcome = Except.ok res) ∧
    (∀ e : TransportError,
      endRequest (c.request method path) outcome = Except.error e →
      outcome = TransportOutcome.transportFailure e) ∧
    c.get path = c.request "GET" path ∧
    c.post path = c.request "POST" path ∧
    c.put path = c.request "PUT" path ∧
    c.del path = c.request "DELETE" path := by
  refine ⟨?_, ?_, rfl, rfl, rfl, rfl⟩
  · intro res h
    subst h
    rfl
  · intro e h
    cases outcome with
    | transportFailure e2 =>
      simp only [endRequest, Except.error.injEq] at h
      rw [h]
    | completed res => exact Except.noConfusion h

/-- C3 witness: a completed 503 exchange resolves to the response. -/
theorem request_resolution_policy_witness :
    endRequest ((mkProxyClient none).request "GET" "/search")
      (TransportOutcome.completed { status := 503 })
      = Except.ok { status := 503 } :=
  (request_resolution_policy (mkProxyClient none) "GET" "/search"
    (TransportOutcome.completed { status := 503 })).1 { status := 503 } rfl

/-- C5: the transport helper dispatches http: via the plain-http module and
https: via the tls module, fails synchronously with the invalid-protocol
error for every other scheme (dispatching nothing), and the constructor
stores any rootUrl verbatim with no scheme validation. -/
theorem createCoreRequest_protocol_dispatch (c : ProxyClient) (options : CoreOptions) :
    (options.protocol = some "http:" →
      c._createCoreRequest options
        = Except.ok { transport := Transport.httpMod, options := options }) ∧
    (options.protocol = some "https:" →
      c._createCoreRequest options
        = Except.ok { transport := Transport.httpsMod, options := options }) ∧
    (options.protocol ≠ some "http:" → options.protocol ≠ some "https:" →
      c._createCoreRequest options = Except.error (JsError.error
        ("Invalid protocol, " ++ protocolText options.protocol
          ++ ". Check rootUrl."))) ∧
    (∀ opts : CtorOptions, ∀ s, opts.rootUrl = some s → s ≠ "" →
      (mkProxyClient (some opts)).rootUrl = s) := by
  refine ⟨?_, ?_, ?_, ?_⟩
  · intro h; simp [ProxyClient._createCoreRequest, h]
  · intro h; simp [ProxyClient._createCoreRequest, h]
  · intro h1 h2; simp [ProxyClient._createCoreRequest, h1, h2]
  · intro opts s hs hne; simp [mkProxyClient, jsOrStr, jsTruthyStr, hs, hne]

/-- C5 witness: an ftp target fails with the invalid-protocol error while
an ftp rootUrl is accepted at construction, and http dispatches plainly. -/
theorem createCoreRequest_protocol_dispatch_witness :
    (mkProxyClient none)._createCoreRequest
      { protocol := some "ftp:", method := "GET", hostname := some "files.example",
        port := none, path := some "/x", headers := [] }
      = Except.error (JsError.error "Invalid protocol, ftp:. Check rootUrl.") ∧
    (mkProxyClient (some { rootUrl := some "ftp://files.example" })).rootUrl
      = "ftp://files.example" ∧
    (mkProxyClient none)._createCoreRequest
      { protocol := some "http:", method := "GET", hostname := some "localhost",
        port := none, path := some "/x", headers := [] }
      = Except.ok { transport := Transport.httpMod, options :=
        { protocol := some "http:", method := "GET", hostname := some "localhost",
          port := none, path := some "/x", headers := [] } } := by
  have main := createCoreRequest_protocol_dispatch (mkProxyClient none)
    { protocol := some "ftp:", method := "GET", hostname := some "files.example",
      port := none, path := some "/x", headers := [] }
  have main2 := createCoreRequest_protocol_dispatch (mkProxyClient none)
    { protocol := some "http:", method := "GET", hostname := some "localhost",
      port := none, path := some "/x", headers := [] }
  refine ⟨?_, ?_, main2.1 rfl⟩
  · exact main.2.2.1 (by decide) (by decide)
  · exact main.2.2.2 { rootUrl := some "ftp://files.example" }
      "ftp://files.example" rfl (by decide)

/-- C2: every error built by rejectResponse keeps the original response and
takes its message from the body message else the raw text, its code from
the body code else the status, and its name from the body name else the
canonical reason phrase with whitespace removed plus the Error suffix. -/
theorem rejectResponse_error_fields (c : ProxyClient) (r : SAResponse)
    (e : ClientError)
    (h : c.rejectResponse r = Except.ok (PromiseResult.rejected e)) :
    e.response = r ∧
    (jsTruthyStr (r.body.getD {}).message = true →
      some e.message = (r.body.getD {}).message) ∧
    (jsTruthyStr (r.body.getD {}).message = false → e.message = r.text.getD "") ∧
    (jsTruthyVal (r.body.getD {}).code = true →
      some e.code = (r.body.getD {}).code) ∧
    (jsTruthyVal (r.body.getD {}).code = false → e.code = JsVal.num r.status) ∧
    (jsTruthyStr (r.body.getD {}).name = true →
      some e.name = (r.body.getD {}).name) ∧
    (jsTruthyStr (r.body.getD {}).name = false →
      ∀ phrase, http_STATUS_CODES r.status = some phrase →
        e.name = removeWhitespace phrase ++ "Error") := by
  have hfields : e.response = r ∧
      e.message = (if jsTruthyStr (r.body.getD {}).message
        then (r.body.getD {}).message else r.text).getD "" ∧
      e.code = (if jsTruthyVal (r.body.getD {}).code
        then (r.body.getD {}).code.getD (JsVal.num r.status)
        else JsVal.num r.status) ∧
      (jsTruthyStr (r.body.getD {}).name = true →
        some e.name = (r.body.getD {}).name) ∧
      (jsTruthyStr (r.body.getD {}).name = false →
        ∀ phrase, http_STATUS_CODES r.status = some phrase →
          e.name = removeWhitespace phrase ++ "Error") := by
    simp only [ProxyClient.rejectResponse] at h
    by_cases hname : jsTruthyStr (r.body.getD {}).name = true
    · rw [if_pos hname] at h
      injection h with h1
      injection h1 with h2
      subst h2
      refine ⟨rfl, rfl, rfl, ?_, ?_⟩
      · intro _
        cases hn : (r.body.getD {}).name with
        | none => rw [hn] at hname; exact Bool.noConfusion hname
        | some n => simp [hn]
      · intro hf
        rw [hf] at hname
        exact Bool.noConfusion hname
    · rw [if_neg hname] at h
      have hnameF : jsTruthyStr (r.body.getD {}).name = false := by
        cases hb : jsTruthyStr (r.body.getD {}).name
        · rfl
        · exact absurd hb hname
      cases hsc : http_STATUS_CODES r.status with
      | none => rw [hsc] at h; exact Except.noConfusion h
      | some phrase =>
        rw [hsc] at h
        injection h with h1
        injection h1 with h2
        subst h2
        refine ⟨rfl, rfl, rfl, ?_, ?_⟩
        · intro ht
          rw [hnameF] at ht
          exact Bool.noConfusion ht
        · intro _ phrase2 hp2
          injection hp2 with hp3
          subst hp3
          rfl
  obtain ⟨hresp, hmsg, hcode, hnames⟩ := hfields
  refine ⟨hresp, ?_, ?_, ?_, ?_, hnames.1, hnames.2⟩
  · intro hm
    cases hb : (r.body.getD {}).message with
    | none => rw [hb] at hm; exact Bool.noConfusion hm
    | some s =>
      rw [hmsg, hb]
      rw [hb] at hm
      simp [hm]
  · intro hm
    rw [hmsg, if_neg (by simp [hm])]
  · intro hc
    cases hb : (r.body.getD {}).code with
    | none => rw [hb] at hc; exact Bool.noConfusion hc
    | some v =>
      rw [hcode, hb]
      rw [hb] at hc
      simp [hc]
  · intro hc
    rw [hcode, if_neg (by simp [hc])]

/-- C2 witness: the two spec scenarios — a 404 with empty body and raw text
Not Found yields message Not Found, code 404, name NotFoundError; a body
with explicit message, code and name yields exactly those fields. -/
theorem rejectResponse_error_fields_witness :
    (mkProxyClient none).rejectResponse notFoundResponse
      = Except.ok (PromiseResult.rejected notFoundError) ∧
    notFoundError.name = removeWhitespace "Not Found" ++ "Error" ∧
    notFoundError.message = "Not Found" ∧
    notFoundError.code = JsVal.num 404 ∧
    (mkProxyClient none).rejectResponse customBodyResponse
      = Except.ok (PromiseResult.rejected customBodyError) ∧
    some customBodyError.name = some "CustomError" ∧
    some customBodyError.message = some "bad thing" ∧
    some customBodyError.code = some (JsVal.str "E1") := by
  have h404 := (rejectResponse_error_fields (mkProxyClient none)
    notFoundResponse notFoundError rfl)
  have hcustom := (rejectResponse_error_fields (mkProxyClient none)
    customBodyResponse customBodyError rfl)
  refine ⟨rfl, ?_, rfl, rfl, rfl, ?_, ?_, ?_⟩
  · exact h404.2.2.2.2.2.2 (by decide) "Not Found" (by decide)
  · exact hcustom.2.2.2.2.2.1 (by decide)
  · exact hcustom.2.1 (by decide)
  · exact hcustom.2.2.2.1 (by decide)

/-- C4 counterexample: on a response whose status has no canonical phrase
and whose body carries no name, rejectResponse throws a synchronous
TypeError instead of returning a rejected future. -/
theorem rejectResponse_throws_on_unknown_status :
    (mkProxyClient none).rejectResponse unknownStatusResponse
      = Except.error (JsError.typeError "replace of undefined") := rfl

/-- C4 amended: rejectResponse returns an already-rejected future wrapping
the constructed error — and in particular never throws — whenever the body
carries a truthy name or the status code has a canonical phrase; outside
those cases the name fallback dereferences undefined and throws. -/
theorem rejectResponse_rejects_when_supported (c : ProxyClient) (r : SAResponse)
    (h : jsTruthyStr (r.body.getD {}).name = true ∨
      (http_STATUS_CODES r.status).isSome = true) :
    ∃ e : ClientError, c.rejectResponse r = Except.ok (PromiseResult.rejected e) := by
  simp only [ProxyClient.rejectResponse]
  by_cases hname : jsTruthyStr (r.body.getD {}).name = true
  · rw [if_pos hname]
    exact ⟨_, rfl⟩
  · cases h with
    | inl h1 => exact absurd h1 hname
    | inr h2 =>
      rw [if_neg hname]
      cases hsc : http_STATUS_CODES r.status with
      | none => rw [hsc] at h2; exact Bool.noConfusion h2
      | some phrase => exact ⟨_, rfl⟩

/-- C4 amended witness: a 404 with empty body is safely rejected. -/
theorem rejectResponse_rejects_when_supported_witness :
    (http_STATUS_CODES 404).isSome = true ∧
    ∃ e : ClientError, (mkProxyClient none).rejectResponse notFoundResponse
      = Except.ok (PromiseResult.rejected e) :=
  ⟨by decide, rejectResponse_rejects_when_supported (mkProxyClient none)
    notFoundResponse (Or.inr (by decide))⟩

/-- C8: each proxied inbound request is forwarded to the decomposition of
getUrl applied to the inbound url, with the inbound method and streamed
body, and with the inbound headers carried over subject to Connection
forced to Keep-Alive and Host and Origin forced to the target host. -/
theorem subapp_outbound_construction (c : ProxyClient) (req : InboundRequest)
    (core : CoreRequest) (h : c.subappHandle req = Except.ok core) :
    core.options.method = req.method ∧
    core.options.protocol = (url_parse (c.getUrl req.url)).protocol ∧
    core.options.hostname = (url_parse (c.getUrl req.url)).hostname ∧
    core.options.port = (url_parse (c.getUrl req.url)).port ∧
    core.options.path = (url_parse (c.getUrl req.url)).path ∧
    core.pipedIn = req.bodyChunks ∧
    lookupKey core.options.headers "Connection" = some "Keep-Alive" ∧
    (∀ hst, (url_parse (c.getUrl req.url)).host = some hst →
      lookupKey core.options.headers "Host" = some hst ∧
      lookupKey core.options.headers "Origin" = some hst) ∧
    (∀ k, k ≠ "Connection" → k ≠ "Host" → k ≠ "Origin" →
      lookupKey core.options.headers k = lookupKey req.headers k) := by
  unfold ProxyClient.subappHandle at h
  cases hcr : c._createCoreRequest (c.subappOptions req) with
  | error e =>
    rw [hcr] at h
    exact Except.noConfusion h
  | ok core2 =>
    rw [hcr] at h
    injection h with h2
    subst h2
    obtain ⟨hopts, _⟩ := createCoreRequest_ok_options c _ core2 hcr
    have hopts2 : ({ core2 with pipedIn := req.bodyChunks } : CoreRequest).options
        = c.subappOptions req := hopts
    rw [hopts2]
    obtain ⟨hC, hH, hO, hR⟩ := lookup_forced_headers req.headers
      ((url_parse (c.getUrl req.url)).host.getD "null")
    refine ⟨rfl, rfl, rfl, rfl, rfl, rfl, hC, ?_, hR⟩
    intro hst hhost
    have hht : (url_parse (c.getUrl req.url)).host.getD "null" = hst := by
      rw [hhost]
      rfl
    refine ⟨?_, ?_⟩
    · rw [← hht]
      exact hH
    · rw [← hht]
      exact hO

/-- C8 witness: the end-to-end proxy scenario of the spec — an inbound GET
to /search?q=x against rootUrl https://api.example/v1 produces one https
dispatch to host api.example with path /v1/search?q=x, forced Connection,
Host and Origin headers, and the inbound accept header preserved. -/
theorem subapp_outbound_construction_witness :
    apiClient.subappHandle searchInbound = Except.ok searchOutbound ∧
    lookupKey searchOutbound.options.headers "Host" = some "api.example" ∧
    lookupKey searchOutbound.options.headers "Origin" = some "api.example" ∧
    lookupKey searchOutbound.options.headers "Connection" = some "Keep-Alive" ∧
    lookupKey searchOutbound.options.headers "accept" = some "text/html" ∧
    searchOutbound.options.path = some "/v1/search?q=x" := by
  have hok : apiClient.subappHandle searchInbound = Except.ok searchOutbound := rfl
  have main := subapp_outbound_construction apiClient searchInbound _ hok
  obtain ⟨hhost, horigin⟩ := main.2.2.2.2.2.2.2.1 "api.example" (by decide)
  have haccept := main.2.2.2.2.2.2.2.2 "accept" (by decide) (by decide) (by decide)
  refine ⟨hok, hhost, horigin, main.2.2.2.2.2.2.1, ?_, by decide⟩
  rw [haccept]
  rfl

/-- C9: the response delivered by the subapp handler to the original caller
carries the upstream status code, the upstream headers (set onto the fresh
outbound response), and the upstream body chunks streamed through
unchanged. -/
theorem subapp_response_relay (incoming : CoreIncomingResponse)
    (res : ServerResponse) :
    (subappOnResponse incoming res).status = some incoming.statusCode ∧
    (subappOnResponse incoming res).bodyChunks
      = res.bodyChunks ++ incoming.bodyChunks ∧
    (res.bodyChunks = [] →
      (subappOnResponse incoming res).bodyChunks = incoming.bodyChunks) ∧
    (res.headers = [] → (incoming.headers.map Prod.fst).Nodup →
      (subappOnResponse incoming res).headers = incoming.headers) := by
  refine ⟨rfl, rfl, ?_, ?_⟩
  · intro h
    simp [subappOnResponse, h]
  · intro h1 h2
    show util_extend res.headers incoming.headers = incoming.headers
    rw [h1, util_extend_of_fresh incoming.headers [] (fun _ _ => rfl) h2]
    simp

/-- C9 witness: a 201 upstream response with two headers and two body
chunks is relayed verbatim onto a fresh outbound response. -/
theorem subapp_response_relay_witness :
    (subappOnResponse
      { statusCode := 201,
        headers := [("etag", "abc"), ("content-type", "text/plain")],
        bodyChunks := [[7], [8, 9]] } {}).status = some 201 ∧
    (subappOnResponse
      { statusCode := 201,
        headers := [("etag", "abc"), ("content-type", "text/plain")],
        bodyChunks := [[7], [8, 9]] } {}).headers
      = [("etag", "abc"), ("content-type", "text/plain")] ∧
    (subappOnResponse
      { statusCode := 201,
        headers := [("etag", "abc"), ("content-type", "text/plain")],
        bodyChunks := [[7], [8, 9]] } {}).bodyChunks = [[7], [8, 9]] := by
  have main := subapp_response_relay
    { statusCode := 201,
      headers := [("etag", "abc"), ("content-type", "text/plain")],
      bodyChunks := [[7], [8, 9]] } {}
  exact ⟨main.1, main.2.2.2 rfl (by decide), main.2.2.1 rfl⟩

end ProxyClientModel
